import Mathlib

/-!
# Verification of the iip wire protocol core (`protocol.go`)

A shallow embedding of the framing codec, the per-channel status state
machine, the send-path fragmentation, the reader loops, the close path and
the channel-id allocator of the `iip` package, together with theorems
settling the frozen claims about them.

Conventions of the embedding:
* Go `byte` and `uint32` values are `Nat`s; where overflow matters the
  bound is carried explicitly (`< 2 ^ 32`).
* Go `[]byte` and `string` become `List Nat` (byte lists).
* Fallible Go functions returning `(T, error)` become `Except String T`.
* Stateful methods become pure functions from an explicit observable state
  to the new state plus the frames they enqueue on the connection's
  outbound queue (`tcpWriteQueue`).
-/

namespace Iip

/-- `MaxPathLen` of `const.go`: largest path, in bytes. -/
def MaxPathLen : Nat := 512

/-- `MaxPacketSize` of `const.go`: largest frame payload, 16 MiB. -/
def MaxPacketSize : Nat := 16 * 1024 * 1024

/-- `PacketReadBufSize` of `const.go`: the size of the `bufio` read buffer
both read loops parse through (16 KiB). `bufio.ReadSlice` can only find
the path terminator within one buffer's worth of bytes. -/
def PacketReadBufSize : Nat := 16 * 1024

/-- The two connection roles (`RoleClient = 0`, `RoleServer = 4`);
`NewConnection` rejects every other byte, so the role is two-valued. -/
inductive Role where
  | client
  | server
deriving DecidableEq, Repr

/-- The wire-relevant fields of `Packet` (`Type` is never serialised by
`CreateNetPacket` and is omitted; `Status`, `Path`, `ChannelId`, `Data`
are the four fields the wire format carries). -/
structure Packet where
  Status : Nat
  Path : List Nat
  ChannelId : Nat
  Data : List Nat
deriving DecidableEq, Repr

/-- `isClientStatusCompleted` of `protocol.go`. -/
def isClientStatusCompleted (status : Nat) : Bool :=
  status == 1 || status == 3

/-- `isClientStatusUncompleted` of `protocol.go`. -/
def isClientStatusUncompleted (status : Nat) : Bool :=
  status == 0 || status == 2

/-- `isServerStatusCompleted` of `protocol.go`. -/
def isServerStatusCompleted (status : Nat) : Bool :=
  status == 5 || status == 7

/-- `isServerStatusUncompleted` of `protocol.go`. -/
def isServerStatusUncompleted (status : Nat) : Bool :=
  status == 4 || status == 6

/-- Big-endian 4-byte encoding of a 32-bit value
(`binary.BigEndian.PutUint32`). -/
def putUint32 (n : Nat) : List Nat :=
  [n / 2 ^ 24 % 256, n / 2 ^ 16 % 256, n / 2 ^ 8 % 256, n % 256]

/-- Big-endian decoding of 4 bytes (`binary.BigEndian.Uint32`). -/
def getUint32 (bts : List Nat) : Nat :=
  match bts with
  | [a, b, c, d] => ((a * 256 + b) * 256 + c) * 256 + d
  | _ => 0

/-- `CreateNetPacket` of `protocol.go`: `status ‖ path ‖ 0x00 ‖
channel_id (BE32) ‖ data_len (BE32) ‖ data`, failing when the path is over
`MaxPathLen` bytes or the data over `MaxPacketSize` bytes. The path bytes
are appended verbatim, with no inspection of their contents. -/
def CreateNetPacket (pkt : Packet) : Except String (List Nat) :=
  if pkt.Path.length > MaxPathLen then
    Except.error "path is too large"
  else if pkt.Data.length > MaxPacketSize then
    Except.error "data is too large"
  else
    Except.ok (pkt.Status ::
      (pkt.Path ++ 0 :: (putUint32 pkt.ChannelId ++
        putUint32 pkt.Data.length ++ pkt.Data)))

/-- `CheckClientPacketStatus` of `protocol.go`, as the Boolean "no error".
`prev = 255` is the fresh-channel sentinel. -/
def CheckClientPacketStatus (prev current : Nat) : Bool :=
  if current == 0 || current == 1 then
    !(prev != 255 && !isClientStatusCompleted prev)
  else if current == 2 || current == 3 then
    !(!isClientStatusUncompleted prev)
  else if current == 8 then
    true
  else
    false

/-- `CheckServerPacketStatus` of `protocol.go`, as the Boolean "no error". -/
def CheckServerPacketStatus (prev current : Nat) : Bool :=
  if current == 4 || current == 5 then
    !(prev != 255 && !isServerStatusCompleted prev)
  else if current == 6 || current == 7 then
    !(!isServerStatusUncompleted prev)
  else if current == 8 then
    true
  else
    false

/-! ## Send path (`Channel.SendPacket`) -/

/-- The status `SendPacket` gives a chunk that ends the message
(`chunkSize == remainDataSize`): `1`/`5` on the first frame, `3`/`7` on a
later frame. -/
def doneStatusOf (role : Role) (firstSend : Bool) : Nat :=
  match role, firstSend with
  | .client, true => 1
  | .client, false => 3
  | .server, true => 5
  | .server, false => 7

/-- The status `SendPacket` gives a chunk with more data to follow
(`chunkSize < remainDataSize`): `0`/`4` on the first frame, `2`/`6` on a
later frame. -/
def moreStatusOf (role : Role) (firstSend : Bool) : Nat :=
  match role, firstSend with
  | .client, true => 0
  | .client, false => 2
  | .server, true => 4
  | .server, false => 6

/-- The chunk loop of `Channel.SendPacket`: each iteration takes
`min MaxPacketSize remain` bytes from the front of the remaining data;
a chunk that exhausts the data gets a "done" status, a chunk that does
not gets a "more" status; chunks carry the message's path and the
channel's id. -/
def sendChunks (role : Role) (path : List Nat) (chanId : Nat)
    (firstSend : Bool) (data : List Nat) : List Packet :=
  if h : data.length ≤ MaxPacketSize then
    [⟨doneStatusOf role firstSend, path, chanId, data⟩]
  else
    ⟨moreStatusOf role firstSend, path, chanId, data.take MaxPacketSize⟩ ::
      sendChunks role path chanId false (data.drop MaxPacketSize)
termination_by data.length
decreasing_by
  simp only [List.length_drop]
  simp only [not_le] at h
  have hm : 0 < MaxPacketSize := by decide
  omega

/-- `Channel.SendPacket` on an open channel (`m.err == nil`): the list of
frames it enqueues on `conn.tcpWriteQueue`. Data of at most
`MaxPacketSize` bytes goes out as the packet itself with status `1`
(client) or `5` (server) — its own `ChannelId` field kept, per the source;
larger data goes through the chunk loop, whose chunks carry the channel's
id `chanId`. -/
def sendPacketFrames (role : Role) (chanId : Nat) (pkt : Packet) :
    List Packet :=
  if pkt.Data.length ≤ MaxPacketSize then
    [{ pkt with Status := doneStatusOf role true }]
  else
    sendChunks role pkt.Path chanId true pkt.Data

/-! ## Server dispatcher (`Channel.handleServerLoop`), one non-close frame -/

/-- What one iteration of `handleServerLoop` on a frame with status ≠ 8
does, as far as the merge/handler/reset logic goes: the merged message
(`pktWholeRequest`), the packet actually passed to `handler.Handle`, the
completedness flag passed with it, and the value of `pktWholeRequest`
after the iteration. -/
structure ServerDispatchResult where
  merged : Packet
  handlerArg : Packet
  completedFlag : Bool
  pendingAfter : Option Packet
deriving DecidableEq, Repr

/-- One iteration of `handleServerLoop` for a received frame `pkt` with
`pkt.Status ≠ 8`, with `pending` the current `pktWholeRequest`. The source
merges `pkt` into `pktWholeRequest`, then calls
`handler.Handle(m, pkt, isClientStatusCompleted(pkt.Status))` — note: it
passes `pkt`, not the merged packet — and clears `pktWholeRequest` only
when `isServerStatusCompleted(pkt.Status)` holds. -/
def serverDispatchStep (pending : Option Packet) (pkt : Packet) :
    ServerDispatchResult :=
  let merged : Packet :=
    match pending with
    | none => pkt
    | some whole => { whole with Data := whole.Data ++ pkt.Data, Status := pkt.Status }
  { merged := merged
    handlerArg := pkt
    completedFlag := isClientStatusCompleted pkt.Status
    pendingAfter := if isServerStatusCompleted pkt.Status then none else some merged }

/-! ## Close path (`Channel.Close`, `Connection.Close`)

`Channel.Close` guards its body with
`atomic.CompareAndSwapUint32(&m.closeLock, 0, 1)` but its
`defer atomic.StoreUint32(&m.closeLock, 0)` resets the latch when the body
finishes, so every *sequential* call runs the whole body again. The body:
`m.SendPacket(&Packet{Type: 8, ChannelId: m.Id, channel: m})` (note: the
close packet sets `Type`, never `Status`; `SendPacket` then overwrites
`Status` with `1`/`5` and the `Type` field is never serialised), then
`m.conn.removeChannel(m)`, then `m.err = err`, then closes and nils
`m.closeNotify`. `SendPacket` refuses (returns an error, which `Close`
ignores) when `m.err != nil`, i.e. on every call after the first. -/

/-- The connection-level observables `Channel.Close` touches: the channel
table's key set, the free-id set, and the frames enqueued on
`tcpWriteQueue`. -/
structure ConnObs where
  channels : Finset Nat
  freeIds : Finset Nat
  emitted : List Packet
deriving DecidableEq

/-- The channel-level observables `Channel.Close` touches: the terminal
error (`m.err`, `none` while open) and whether `closeNotify` is still an
open channel. -/
structure ChanObs where
  err : Option String
  notifyOpen : Bool
deriving DecidableEq

/-- The packet literal `Channel.Close` builds:
`&Packet{Type: 8, ChannelId: m.Id}` — `Status` is the zero value `0`,
`Path` and `Data` are empty (`Type` is not a wire field). -/
def closePacketOf (id : Nat) : Packet :=
  ⟨0, [], id, []⟩

/-- One sequential call of `Channel.Close` for the channel `id` with the
(non-nil) error argument `e`, on connection observables `c` and channel
observables `ch`. -/
def channelClose (role : Role) (id : Nat) (e : String)
    (c : ConnObs) (ch : ChanObs) : ConnObs × ChanObs :=
  let c1 : ConnObs :=
    match ch.err with
    | none => { c with emitted := c.emitted ++ sendPacketFrames role id (closePacketOf id) }
    | some _ => c
  let c2 : ConnObs :=
    { c1 with channels := c1.channels.erase id, freeIds := insert id c1.freeIds }
  (c2, { err := some e, notifyOpen := false })

/-- A connection's observables for `Connection.Close`: its terminal error,
its stop latch, the channel table as an association list id ↦ channel
observables, the free-id set and the emitted frames. -/
structure ConnCloseSt where
  connErr : Option String
  notifyOpen : Bool
  table : List (Nat × ChanObs)
  freeIds : Finset Nat
  emitted : List Packet
deriving DecidableEq

/-- The cascade body of `Connection.Close` for one channel `(id, ch)` of
the table: `v.Close(...)` emits the close frame when the channel had no
error yet, deletes the channel's key from the table and returns its id to
the free set. -/
def closeOneChannel (role : Role) (s : ConnCloseSt) (idch : Nat × ChanObs) :
    ConnCloseSt :=
  { s with
    emitted := s.emitted ++
      (match idch.2.err with
       | none => sendPacketFrames role idch.1 (closePacketOf idch.1)
       | some _ => [])
    table := s.table.filter (fun p => p.1 != idch.1)
    freeIds := insert idch.1 s.freeIds }

/-- One sequential call of `Connection.Close` with error argument `e`:
sets `m.err` (overwriting any earlier value), cascades `Close` to every
channel in the table (each removing itself from the table), and closes
the stop latch. The registry callbacks and the TCP socket closes are
outside the observable state. -/
def connClose (role : Role) (e : String) (s : ConnCloseSt) : ConnCloseSt :=
  let s1 : ConnCloseSt := { s with connErr := some e }
  let s2 := s.table.foldl (closeOneChannel role) s1
  { s2 with notifyOpen := false }

/-! ## Reader loops (`Connection.clientReadLoop` / `serverReadLoop`)

Both loops parse one frame from the inbound byte stream in the order of
the source: one status byte (an `X8` closes the connection at once); the
path up to and including the `0x00` terminator (`bufReader.ReadSlice(0)`);
4 bytes of channel id; the channel-table lookup; the status-progression
check against the channel's `packetStatus`; 4 bytes of data length with
its bounds checks; then the payload. Every short read closes the
connection. The loops differ only in the check used: the server validates
inbound client statuses, the client inbound server statuses. The byte
stream is a finite byte list; a read past its end is the stream ending
mid-frame. -/

/-- `bufReader.ReadSlice(0)` against a `bufio` read buffer of `room`
bytes: the bytes before the first `0x00` and the bytes after it. It fails
when the stream ends before a `0x00` (an I/O error mid-frame) and also
when no `0x00` occurs within the first `room` bytes — `bufio.ReadSlice`
returns `ErrBufferFull` once the buffer fills without the delimiter, and
both read loops treat that error like any other read failure and close
the connection. The reader calls it with `room = PacketReadBufSize`. -/
def readSliceZero (room : Nat) (input : List Nat) :
    Option (List Nat × List Nat) :=
  match room, input with
  | _, [] => none
  | 0, _ :: _ => none
  | room + 1, b :: rest =>
    if b = 0 then
      some ([], rest)
    else
      match readSliceZero room rest with
      | none => none
      | some (path, r) => some (b :: path, r)

/-- `io.ReadFull` of `n` bytes: the bytes and the remainder, failing when
fewer than `n` bytes remain. -/
def readFullN (n : Nat) (input : List Nat) : Option (List Nat × List Nat) :=
  if n ≤ input.length then some (input.take n, input.drop n) else none

/-- Why a reader iteration calls `Connection.Close`. -/
inductive CloseReason where
  | peerClose
  | ioShortRead
  | unknownChannel
  | badStatus
  | dataTooLong
  | dataZero
deriving DecidableEq, Repr

/-- The outcome of one reader iteration: the connection closes, or one
parsed frame is delivered to its channel's `receivedQueue` with the rest
of the stream unread. -/
inductive ReadOutcome where
  | close (reason : CloseReason)
  | deliver (fr : Packet) (rest : List Nat)
deriving DecidableEq, Repr

/-- The status check a role's reader applies to inbound frames: the
server's reader (`serverReadLoop`) validates client statuses, the
client's reader (`clientReadLoop`) server statuses. -/
def statusCheckFor (role : Role) : Nat → Nat → Bool :=
  match role with
  | .server => CheckClientPacketStatus
  | .client => CheckServerPacketStatus

/-- One iteration of the reader loop of `role`'s connection, on inbound
bytes `input`. `table` is the channel table restricted to what the
iteration reads: each known channel id's `packetStatus` (the most recent
received status, initially the sentinel `255`). -/
def readerStep (role : Role) (table : Nat → Option Nat)
    (input : List Nat) : ReadOutcome :=
  match input with
  | [] => .close .ioShortRead
  | status :: r1 =>
    if status = 8 then .close .peerClose
    else
      match readSliceZero PacketReadBufSize r1 with
      | none => .close .ioShortRead
      | some (path, r2) =>
        match readFullN 4 r2 with
        | none => .close .ioShortRead
        | some (btsChannelId, r3) =>
          let channelId := getUint32 btsChannelId
          match table channelId with
          | none => .close .unknownChannel
          | some prev =>
            if !statusCheckFor role prev status then .close .badStatus
            else
              match readFullN 4 r3 with
              | none => .close .ioShortRead
              | some (btsDataLen, r4) =>
                let dataLen := getUint32 btsDataLen
                if dataLen > MaxPacketSize then .close .dataTooLong
                else if dataLen = 0 then .close .dataZero
                else
                  match readFullN dataLen r4 with
                  | none => .close .ioShortRead
                  | some (dat, r5) => .deliver ⟨status, path, channelId, dat⟩ r5

/-! ## Channel id allocation (`Connection.makeNewChannelId`) -/

/-- The allocator's state: `MaxChannelId`, the `FreeChannleId` set (a Go
map iterated in no particular order, modelled as a list popped from the
front), and the key set of the `Channels` table. -/
structure AllocSt where
  maxId : Nat
  freeIds : List Nat
  table : Finset Nat
deriving DecidableEq

/-- `Connection.makeNewChannelId`: pop a free id when there is one; else
`MaxChannelId + 1` when `MaxChannelId < 2^32 − 1`; else return `0`, the
failure value (`0` is the reserved system-channel id, never handed out by
a successful allocation). -/
def makeNewChannelId (s : AllocSt) : Nat × AllocSt :=
  match s.freeIds with
  | k :: rest => (k, { s with freeIds := rest })
  | [] =>
    if s.maxId < 2 ^ 32 - 1 then
      (s.maxId + 1, { s with maxId := s.maxId + 1 })
    else
      (0, s)

/-- `Connection.newChannel(false, _)` as it affects the allocator state:
allocate an id and put it in the channel table. -/
def newChannelStep (s : AllocSt) : AllocSt :=
  let (id, s1) := makeNewChannelId s
  { s1 with table := insert id s1.table }

/-- `Connection.removeChannel` as it affects the allocator state: the
channel's key leaves the table and its id joins the free set. -/
def removeChannelStep (s : AllocSt) (id : Nat) : AllocSt :=
  { s with table := s.table.erase id, freeIds := id :: s.freeIds }

/-- The allocator state at connection birth: `MaxChannelId = 0`, no free
ids, and the system channel `0` pre-created in the table. -/
def allocInit : AllocSt :=
  ⟨0, [], {0}⟩

/-- The allocator states a live connection can reach: from `allocInit` by
creating channels (`newChannel`) and by removing open non-system channels
(`removeChannel`, called from `Channel.Close`; closing the system channel
`0` only happens while the whole connection is torn down). -/
inductive ReachableAlloc : AllocSt → Prop where
  | init : ReachableAlloc allocInit
  | step_new (s : AllocSt) (h : ReachableAlloc s) :
      ReachableAlloc (newChannelStep s)
  | step_remove (s : AllocSt) (id : Nat) (h : ReachableAlloc s)
      (hmem : id ∈ s.table) (hnz : id ≠ 0) :
      ReachableAlloc (removeChannelStep s id)

/-- The shape of an inbound byte suffix (everything after the status byte)
that one reader iteration consumes as a single well-formed frame: a
NUL-free path short enough that its `0x00` terminator falls inside the
16 KiB `bufio` buffer, the terminator, 4 channel-id bytes naming a
channel of the table, a legal status for that channel, 4 length bytes
within bounds, and exactly that many payload bytes. Its negation
enumerates the reader's close conditions: stream ending mid-frame (no
terminator or too few bytes for a field or the payload), no terminator
within the first `PacketReadBufSize` bytes (`bufio.ErrBufferFull`),
unknown channel id, illegal status value or transition, `data_len` over
`MaxPacketSize`, `data_len = 0`. -/
def frameShaped (role : Role) (table : Nat → Option Nat) (status : Nat)
    (r1 : List Nat) : Prop :=
  ∃ path bCid bLen dat rest prev,
    r1 = path ++ 0 :: (bCid ++ (bLen ++ (dat ++ rest))) ∧
    (0 : Nat) ∉ path ∧
    path.length < PacketReadBufSize ∧
    bCid.length = 4 ∧
    bLen.length = 4 ∧
    table (getUint32 bCid) = some prev ∧
    statusCheckFor role prev status = true ∧
    getUint32 bLen ≤ MaxPacketSize ∧
    getUint32 bLen ≠ 0 ∧
    dat.length = getUint32 bLen

/-- The well-formed-frame shape of claim C9 as originally stated: the
same decomposition with no bound on the path — the negation of exactly
the claim's enumerated malformations (illegal status value/transition,
`data_len` over the limit or zero, unknown channel id, stream ending
mid-frame), which say nothing about a path outgrowing the read buffer. -/
def frameShapedUnbounded (role : Role) (table : Nat → Option Nat)
    (status : Nat) (r1 : List Nat) : Prop :=
  ∃ path bCid bLen dat rest prev,
    r1 = path ++ 0 :: (bCid ++ (bLen ++ (dat ++ rest))) ∧
    (0 : Nat) ∉ path ∧
    bCid.length = 4 ∧
    bLen.length = 4 ∧
    table (getUint32 bCid) = some prev ∧
    statusCheckFor role prev status = true ∧
    getUint32 bLen ≤ MaxPacketSize ∧
    getUint32 bLen ≠ 0 ∧
    dat.length = getUint32 bLen

/-- A one-channel table for concrete evaluations: channel `7` is present
with the fresh-channel sentinel status `255`. -/
def witTable : Nat → Option Nat :=
  fun i => if i = 7 then some 255 else none

/-- Everything after the status byte of a frame whose NUL-free path fills
the whole 16 KiB read buffer: 16384 bytes of `/`, the `0x00` terminator,
channel id `7`, data length `2`, two payload bytes — every field present
and legal, yet `bufio.ReadSlice(0)` cannot reach the terminator. -/
def longPathInput : List Nat :=
  List.replicate 16384 47 ++ 0 :: ([0, 0, 0, 7] ++ ([0, 0, 0, 2] ++ ([104, 105] ++ [])))

/-! ## Helper lemmas for the send path -/

theorem sendChunks_flatten (role : Role) (path : List Nat) (chanId : Nat)
    (firstSend : Bool) (data : List Nat) :
    ((sendChunks role path chanId firstSend data).map Packet.Data).flatten = data := by
  refine sendChunks.induct role path chanId
    (fun fs d => ((sendChunks role path chanId fs d).map Packet.Data).flatten = d)
    ?_ ?_ firstSend data
  · intro fs d h
    rw [sendChunks, dif_pos h]
    simp
  · intro fs d h ih
    rw [sendChunks, dif_neg h]
    simp only [List.map_cons, List.flatten_cons, ih]
    exact List.take_append_drop _ _

theorem sendChunks_payload_le (role : Role) (path : List Nat) (chanId : Nat)
    (firstSend : Bool) (data : List Nat) :
    ∀ f ∈ sendChunks role path chanId firstSend data,
      f.Data.length ≤ MaxPacketSize := by
  refine sendChunks.induct role path chanId
    (fun fs d => ∀ f ∈ sendChunks role path chanId fs d, f.Data.length ≤ MaxPacketSize)
    ?_ ?_ firstSend data
  · intro fs d h f hf
    rw [sendChunks, dif_pos h] at hf
    simp only [List.mem_singleton] at hf
    subst hf
    exact h
  · intro fs d h ih f hf
    rw [sendChunks, dif_neg h] at hf
    rcases List.mem_cons.mp hf with hf | hf
    · subst hf
      simpa using List.length_take_le MaxPacketSize d
    · exact ih f hf

theorem sendChunks_statuses_later (role : Role) (path : List Nat) (chanId : Nat)
    (data : List Nat) :
    ∃ n, (sendChunks role path chanId false data).map Packet.Status =
      List.replicate n (moreStatusOf role false) ++ [doneStatusOf role false] := by
  have H : ∀ (fuel : Nat) (d : List Nat), d.length ≤ fuel →
      ∃ n, (sendChunks role path chanId false d).map Packet.Status =
        List.replicate n (moreStatusOf role false) ++ [doneStatusOf role false] := by
    intro fuel
    induction fuel with
    | zero =>
      intro d hd
      have hle : d.length ≤ MaxPacketSize := by omega
      rw [sendChunks, dif_pos hle]
      exact ⟨0, by simp⟩
    | succ fuel ih =>
      intro d hd
      by_cases hle : d.length ≤ MaxPacketSize
      · rw [sendChunks, dif_pos hle]
        exact ⟨0, by simp⟩
      · rw [sendChunks, dif_neg hle]
        have hdrop : (d.drop MaxPacketSize).length ≤ fuel := by
          simp only [List.length_drop]
          have : 0 < MaxPacketSize := by decide
          omega
        obtain ⟨n, hn⟩ := ih (d.drop MaxPacketSize) hdrop
        refine ⟨n + 1, ?_⟩
        simp only [List.map_cons, hn, List.replicate_succ, List.cons_append]
  exact H data.length data le_rfl

/-! ## Helper lemmas for the codec and the reader -/

theorem readSliceZero_append_of_not_mem {l : List Nat}
    (h : (0 : Nat) ∉ l) {room : Nat} (hroom : l.length < room)
    (r : List Nat) :
    readSliceZero room (l ++ 0 :: r) = some (l, r) := by
  induction l generalizing room with
  | nil =>
    rcases room with _ | room
    · exact absurd hroom (Nat.not_lt_zero _)
    · simp [readSliceZero]
  | cons b t ih =>
    have hb : b ≠ 0 := fun hb => h (by simp [hb])
    have ht : (0 : Nat) ∉ t := fun ht => h (by simp [ht])
    rcases room with _ | room
    · exact absurd hroom (Nat.not_lt_zero _)
    · have htlen : t.length < room := by
        simp only [List.length_cons] at hroom
        omega
      simp [readSliceZero, hb, ih ht htlen]

theorem readSliceZero_none_of_cap {l : List Nat} (h : (0 : Nat) ∉ l)
    {room : Nat} (hroom : room ≤ l.length) (r : List Nat) :
    readSliceZero room (l ++ r) = none := by
  induction l generalizing room with
  | nil =>
    have hr0 : room = 0 := Nat.le_zero.mp hroom
    subst hr0
    cases r <;> rfl
  | cons b t ih =>
    have hb : b ≠ 0 := fun hb => h (by simp [hb])
    have ht : (0 : Nat) ∉ t := fun ht => h (by simp [ht])
    rcases room with _ | room
    · rfl
    · have htlen : room ≤ t.length := by
        simp only [List.length_cons] at hroom
        omega
      simp [readSliceZero, hb, ih ht htlen]

theorem readSliceZero_of_mem {l : List Nat} (h : (0 : Nat) ∈ l)
    {room : Nat}
    (hroom : (l.takeWhile (fun b => b != 0)).length < room)
    (r : List Nat) :
    readSliceZero room (l ++ r) =
      some (l.takeWhile (fun b => b != 0),
        (l.dropWhile (fun b => b != 0)).tail ++ r) := by
  induction l generalizing room with
  | nil => simp at h
  | cons b t ih =>
    rcases room with _ | room
    · exact absurd hroom (Nat.not_lt_zero _)
    · by_cases hb : b = 0
      · subst hb
        simp [readSliceZero, List.takeWhile, List.dropWhile]
      · have ht : (0 : Nat) ∈ t := by
          rcases List.mem_cons.mp h with h | h
          · exact absurd h.symm hb
          · exact h
        have hbne : (b != 0) = true := by simp [hb]
        have htlen : (t.takeWhile (fun b => b != 0)).length < room := by
          simp only [List.takeWhile_cons, hbne, if_true, List.length_cons] at hroom
          omega
        simp [readSliceZero, hb, ih ht htlen, List.takeWhile_cons,
          List.dropWhile_cons, hbne]

theorem readSliceZero_eq_some {room : Nat} {l p r : List Nat}
    (h : readSliceZero room l = some (p, r)) :
    l = p ++ 0 :: r ∧ (0 : Nat) ∉ p ∧ p.length < room := by
  induction l generalizing room p r with
  | nil => rcases room with _ | room <;> simp [readSliceZero] at h
  | cons b t ih =>
    rcases room with _ | room
    · simp [readSliceZero] at h
    · by_cases hb : b = 0
      · subst hb
        simp [readSliceZero] at h
        obtain ⟨hp, hr⟩ := h
        subst hp; subst hr
        refine ⟨by simp, by simp, by simp⟩
      · simp only [readSliceZero, if_neg hb] at h
        rcases ht : readSliceZero room t with _ | ⟨p0, r0⟩ <;> rw [ht] at h
        · simp at h
        · simp only [Option.some.injEq, Prod.mk.injEq] at h
          obtain ⟨hp, hr⟩ := h
          obtain ⟨hteq, hnp, hplen⟩ := ih ht
          subst hr
          rw [← hp]
          refine ⟨by simp [hteq], ?_, ?_⟩
          · intro hmem
            rcases List.mem_cons.mp hmem with hmem | hmem
            · exact hb hmem.symm
            · exact hnp hmem
          · simp only [List.length_cons]
            omega

theorem readFullN_of_length {l : List Nat} (r : List Nat) {n : Nat}
    (h : l.length = n) :
    readFullN n (l ++ r) = some (l, r) := by
  subst h
  simp [readFullN, List.take_left, List.drop_left]

theorem readFullN_eq_some {n : Nat} {l b r : List Nat}
    (h : readFullN n l = some (b, r)) :
    l = b ++ r ∧ b.length = n := by
  by_cases hn : n ≤ l.length
  · rw [readFullN, if_pos hn] at h
    have hb : l.take n = b := congrArg Prod.fst (Option.some.inj h)
    have hr : l.drop n = r := congrArg Prod.snd (Option.some.inj h)
    subst hb
    subst hr
    refine ⟨(List.take_append_drop n l).symm, ?_⟩
    simp only [List.length_take]
    omega
  · rw [readFullN, if_neg hn] at h
    cases h

theorem putUint32_length (n : Nat) : (putUint32 n).length = 4 := by
  simp [putUint32]

theorem getUint32_putUint32 {n : Nat} (h : n < 2 ^ 32) :
    getUint32 (putUint32 n) = n := by
  simp only [putUint32, getUint32]
  omega

/-- Inversion of a reader iteration that delivers a frame: the input began
with the frame's (non-`X8`) status byte and the remainder had the
well-formed frame shape. -/
theorem readerStep_deliver_shape {role : Role} {table : Nat → Option Nat}
    {input : List Nat} {fr : Packet} {rest : List Nat}
    (h : readerStep role table input = ReadOutcome.deliver fr rest) :
    ∃ r1, input = fr.Status :: r1 ∧ fr.Status ≠ 8 ∧
      frameShaped role table fr.Status r1 := by
  match input with
  | [] => exact absurd h (by simp [readerStep])
  | status :: r1 =>
    by_cases h8 : status = 8
    · rw [readerStep, if_pos h8] at h
      cases h
    · rw [readerStep, if_neg h8] at h
      rcases hs : readSliceZero PacketReadBufSize r1 with _ | ⟨path, r2⟩ <;>
        simp only [hs] at h
      · cases h
      · rcases hc : readFullN 4 r2 with _ | ⟨bCid, r3⟩ <;> simp only [hc] at h
        · cases h
        · rcases ht : table (getUint32 bCid) with _ | prev <;> simp only [ht] at h
          · cases h
          · rcases hchk : statusCheckFor role prev status <;>
              simp only [hchk, Bool.not_false, Bool.not_true, if_true, if_false] at h
            · cases h
            · rcases hl : readFullN 4 r3 with _ | ⟨bLen, r4⟩ <;> simp only [hl] at h
              · cases h
              · by_cases hgt : getUint32 bLen > MaxPacketSize
                · rw [if_pos hgt] at h
                  cases h
                · rw [if_neg hgt] at h
                  by_cases hz : getUint32 bLen = 0
                  · rw [if_pos hz] at h
                    cases h
                  · rw [if_neg hz] at h
                    rcases hd : readFullN (getUint32 bLen) r4 with _ | ⟨dat, r5⟩ <;>
                        simp only [hd] at h
                    · cases h
                    · obtain ⟨hfr, hrest⟩ := ReadOutcome.deliver.inj h
                      subst hrest
                      subst hfr
                      obtain ⟨hr1, hpz, hplen⟩ := readSliceZero_eq_some hs
                      obtain ⟨hr2, hcl⟩ := readFullN_eq_some hc
                      obtain ⟨hr3, hll⟩ := readFullN_eq_some hl
                      obtain ⟨hr4, hdl⟩ := readFullN_eq_some hd
                      exact ⟨r1, rfl, h8, path, bCid, bLen, dat, r5, prev,
                        by rw [hr1, hr2, hr3, hr4], hpz, hplen, hcl, hll, ht,
                        hchk, le_of_not_lt hgt, hz, hdl⟩

/-- A well-formed-shaped inbound suffix after a non-`X8` status byte is
delivered, not closed on. -/
theorem readerStep_shaped_deliver {role : Role} {table : Nat → Option Nat}
    {status : Nat} {r1 : List Nat} (h8 : status ≠ 8)
    (hsh : frameShaped role table status r1) :
    ∃ fr rest, readerStep role table (status :: r1) =
      ReadOutcome.deliver fr rest := by
  obtain ⟨path, bCid, bLen, dat, rest, prev, hr1, hpz, hplen, hcl, hll, ht,
    hchk, hle, hz, hdl⟩ := hsh
  refine ⟨⟨status, path, getUint32 bCid, dat⟩, rest, ?_⟩
  rw [readerStep, if_neg h8, hr1]
  rw [readSliceZero_append_of_not_mem hpz hplen]
  simp only
  rw [readFullN_of_length _ hcl]
  simp only [ht, hchk, Bool.not_true, if_false]
  rw [readFullN_of_length _ hll]
  simp only
  rw [if_neg (not_lt.mpr hle), if_neg hz]
  rw [readFullN_of_length _ hdl]
  simp

/-- `readFullN` consuming the whole remaining stream. -/
theorem readFullN_all {l : List Nat} {n : Nat} (h : l.length = n) :
    readFullN n l = some (l, []) := by
  have h2 := readFullN_of_length ([] : List Nat) h
  rwa [List.append_nil] at h2

/-! ## The claims -/

/-- C1. For every logical message passed to `Channel.SendPacket`: when
`|data| ≤ 16 MiB` exactly one frame goes out, with status `1` (client
role) or `5` (server role); otherwise a sequence of frames goes out, each
carrying at most 16 MiB of payload, whose concatenated payloads equal the
data, with the first frame's status `0`/`4`, middle frames `2`/`6` and the
last frame `3`/`7` (`doneStatusOf role true = 1/5`,
`moreStatusOf role true = 0/4`, `moreStatusOf role false = 2/6`,
`doneStatusOf role false = 3/7`). -/
theorem claim_C1_sendPacket_fragmentation (role : Role) (chanId : Nat)
    (pkt : Packet) :
    ((sendPacketFrames role chanId pkt).map Packet.Data).flatten = pkt.Data ∧
    (∀ f ∈ sendPacketFrames role chanId pkt, f.Data.length ≤ MaxPacketSize) ∧
    (if pkt.Data.length ≤ MaxPacketSize then
      sendPacketFrames role chanId pkt = [{ pkt with Status := doneStatusOf role true }]
    else
      ∃ n, (sendPacketFrames role chanId pkt).map Packet.Status =
        moreStatusOf role true ::
          (List.replicate n (moreStatusOf role false) ++ [doneStatusOf role false])) := by
  by_cases hle : pkt.Data.length ≤ MaxPacketSize
  · rw [sendPacketFrames, if_pos hle]
    refine ⟨by simp, ?_, ?_⟩
    · intro f hf
      simp only [List.mem_singleton] at hf
      subst hf
      exact hle
    · rw [if_pos hle]
  · rw [sendPacketFrames, if_neg hle]
    refine ⟨sendChunks_flatten role pkt.Path chanId true pkt.Data,
      sendChunks_payload_le role pkt.Path chanId true pkt.Data, ?_⟩
    rw [if_neg hle]
    rw [sendChunks, dif_neg hle]
    obtain ⟨n, hn⟩ :=
      sendChunks_statuses_later role pkt.Path chanId (pkt.Data.drop MaxPacketSize)
    exact ⟨n, by simp [hn]⟩

/-- C3. `CheckClientPacketStatus` accepts `0`/`1` exactly when the
previous status is the sentinel `255` or a completed client status
(`1`/`3`), accepts `2`/`3` exactly when it is an uncompleted client status
(`0`/`2`), always accepts `8`, and rejects every other current status;
`CheckServerPacketStatus` symmetrically over the server alphabet. -/
theorem claim_C3_status_transition_table (prev current : Nat) :
    (CheckClientPacketStatus prev current = true ↔
      (((current = 0 ∨ current = 1) ∧ (prev = 255 ∨ prev = 1 ∨ prev = 3)) ∨
       ((current = 2 ∨ current = 3) ∧ (prev = 0 ∨ prev = 2)) ∨
       current = 8)) ∧
    (CheckServerPacketStatus prev current = true ↔
      (((current = 4 ∨ current = 5) ∧ (prev = 255 ∨ prev = 5 ∨ prev = 7)) ∨
       ((current = 6 ∨ current = 7) ∧ (prev = 4 ∨ prev = 6)) ∨
       current = 8)) := by
  constructor
  · unfold CheckClientPacketStatus isClientStatusCompleted isClientStatusUncompleted
    split_ifs with h1 h2 h3 <;> simp_all <;> omega
  · unfold CheckServerPacketStatus isServerStatusCompleted isServerStatusUncompleted
    split_ifs with h1 h2 h3 <;> simp_all <;> omega

/-- C6. A status byte `8` at the head of a frame closes the whole
connection at once — for every suffix, so before any path or channel id is
parsed — and no frame with status `8` is ever delivered to a channel's
inbound queue. -/
theorem claim_C6_x8_closes_connection (role : Role)
    (table : Nat → Option Nat) (rest : List Nat) :
    readerStep role table (8 :: rest) = ReadOutcome.close CloseReason.peerClose ∧
    ∀ (input : List Nat) (fr : Packet) (remaining : List Nat),
      readerStep role table input = ReadOutcome.deliver fr remaining →
        fr.Status ≠ 8 := by
  refine ⟨by rw [readerStep, if_pos rfl], ?_⟩
  intro input fr remaining h
  obtain ⟨r1, _, h8, _⟩ := readerStep_deliver_shape h
  exact h8

/-- C9 (amended). For an incoming non-`X8` frame, the reader delivers it
exactly when the input decomposes as a well-formed frame (`frameShaped`),
and closes the connection exactly when it does not — i.e. exactly when
the stream ends mid-frame (no path terminator, short id/length field or
short payload), **no `0x00` path terminator occurs within the first
`PacketReadBufSize = 16384` bytes after the status byte (the `bufio` read
buffer fills: `ErrBufferFull`)**, the channel id is not in the table, the
status byte or its transition from the channel's last received status is
rejected, the data length exceeds 16 MiB, or the data length is 0. The
emphasised condition is the one the original claim's enumeration is
missing; the counterexample below exhibits it. -/
theorem claim_C9_reader_close_conditions (role : Role)
    (table : Nat → Option Nat) (status : Nat) (r1 : List Nat)
    (h8 : status ≠ 8) :
    ((∃ fr rest, readerStep role table (status :: r1) =
        ReadOutcome.deliver fr rest) ↔ frameShaped role table status r1) ∧
    ((∃ reason, readerStep role table (status :: r1) =
        ReadOutcome.close reason) ↔ ¬ frameShaped role table status r1) := by
  have hmain : (∃ fr rest, readerStep role table (status :: r1) =
      ReadOutcome.deliver fr rest) ↔ frameShaped role table status r1 := by
    constructor
    · rintro ⟨fr, rest, h⟩
      obtain ⟨r1x, hx, _, hsh⟩ := readerStep_deliver_shape h
      obtain ⟨h1, h2⟩ := List.cons.inj hx
      rw [h1, h2]
      exact hsh
    · intro hsh
      exact readerStep_shaped_deliver h8 hsh
  refine ⟨hmain, ?_, ?_⟩
  · rintro ⟨reason, h⟩ hsh
    obtain ⟨fr, rest, hd⟩ := hmain.mpr hsh
    rw [h] at hd
    cases hd
  · intro hns
    rcases houtcome : readerStep role table (status :: r1) with ⟨reason⟩ | ⟨fr, rest2⟩
    · exact ⟨reason, rfl⟩
    · exact absurd (hmain.mp ⟨fr, rest2, houtcome⟩) hns

/-- Witness for C9 at a concrete well-formed frame: status `1`, path
`"/e"`, channel `7` (present in `witTable` with sentinel state), 2 payload
bytes. -/
theorem claim_C9_reader_close_conditions_witness :
    frameShaped Role.server witTable 1
      [47, 101, 0, 0, 0, 0, 7, 0, 0, 0, 2, 104, 105] :=
  ((claim_C9_reader_close_conditions Role.server witTable 1
      [47, 101, 0, 0, 0, 0, 7, 0, 0, 0, 2, 104, 105] (by decide)).1).mp
    ⟨⟨1, [47, 101], 7, [104, 105]⟩, [], by decide⟩

/-- Counterexample to C9 as stated: `longPathInput` is, after its status
byte `1`, a frame with every field present and legal — a `0x00`-terminated
path, channel id `7` known to the table with fresh state, a legal status,
data length `2` within bounds, and both payload bytes in the stream — so
none of the claim's enumerated malformations hold (the read does not end
mid-frame, `frameShapedUnbounded` holds). Yet the reader closes the
connection: the NUL-free path prefix is 16384 bytes, `bufio.ReadSlice(0)`
fills its 16 KiB buffer before the terminator and returns
`ErrBufferFull`, a close condition outside the claim's enumeration. -/
theorem claim_C9_counterexample :
    frameShapedUnbounded Role.server witTable 1 longPathInput ∧
    readerStep Role.server witTable (1 :: longPathInput) =
      ReadOutcome.close CloseReason.ioShortRead := by
  constructor
  · refine ⟨List.replicate 16384 47, [0, 0, 0, 7], [0, 0, 0, 2], [104, 105],
      [], 255, rfl, ?_, rfl, rfl, ?_, ?_, ?_, ?_, rfl⟩
    · exact fun hmem => absurd (List.eq_of_mem_replicate hmem) (by decide)
    · rfl
    · rfl
    · decide
    · decide
  · rw [readerStep, if_neg (by decide : (1 : Nat) ≠ 8)]
    have hnone : readSliceZero PacketReadBufSize longPathInput = none := by
      refine readSliceZero_none_of_cap ?_ ?_ _
      · exact fun hmem => absurd (List.eq_of_mem_replicate hmem) (by decide)
      · rw [List.length_replicate]
        decide
    rw [hnone]

/-- C2 (amended). `decode(encode(p)) = p` holds for every well-formed
packet whose path contains no `0x00` byte, whose data is nonempty, and
whose (non-`X8`) status the receiving channel's transition check accepts,
with the packet's channel id present in the receiver's table: encoding
with `CreateNetPacket` and then running the reader on the bytes delivers
a packet with the same status, path, channel id and data. The interior-NUL
condition is forced by the counterexample below; nonempty data and a
legal non-close status are forced because the reader closes the connection
on `data_len = 0`, on status `8` and on a rejected transition. -/
theorem claim_C2_roundtrip_amended (role : Role) (table : Nat → Option Nat)
    (pkt : Packet) (prev : Nat)
    (hpath : pkt.Path.length ≤ MaxPathLen)
    (hdata : pkt.Data.length ≤ MaxPacketSize)
    (hnul : (0 : Nat) ∉ pkt.Path)
    (hne : pkt.Data ≠ [])
    (hcid : pkt.ChannelId < 2 ^ 32)
    (htab : table pkt.ChannelId = some prev)
    (hchk : statusCheckFor role prev pkt.Status = true)
    (h8 : pkt.Status ≠ 8) :
    ∃ enc, CreateNetPacket pkt = Except.ok enc ∧
      readerStep role table enc = ReadOutcome.deliver pkt [] := by
  obtain ⟨st, pa, ci, da⟩ := pkt
  simp only at hpath hdata hnul hne hcid htab hchk h8
  refine ⟨_, by rw [CreateNetPacket, if_neg (not_lt.mpr hpath),
    if_neg (not_lt.mpr hdata)], ?_⟩
  rw [readerStep, if_neg h8]
  have hplen : pa.length < PacketReadBufSize := by
    have h1 : pa.length ≤ 512 := hpath
    show pa.length < 16 * 1024
    omega
  rw [readSliceZero_append_of_not_mem hnul hplen]
  simp only
  rw [List.append_assoc, readFullN_of_length _ (putUint32_length ci)]
  simp only [getUint32_putUint32 hcid, htab, hchk, Bool.not_true, if_false]
  rw [readFullN_of_length _ (putUint32_length da.length)]
  simp only
  have hd32 : da.length < 2 ^ 32 := by
    have hmax : MaxPacketSize < 2 ^ 32 := by decide
    omega
  rw [getUint32_putUint32 hd32]
  rw [if_neg (not_lt.mpr hdata),
    if_neg (by simpa using hne : ¬ da.length = 0)]
  rw [readFullN_all rfl]
  simp

/-- Witness for C2 (amended) at a concrete packet: status `1`, path
`"/e"`, channel `7` present with sentinel state, data `"hi"`. -/
theorem claim_C2_roundtrip_amended_witness :
    ∃ enc, CreateNetPacket ⟨1, [47, 101], 7, [104, 105]⟩ = Except.ok enc ∧
      readerStep Role.server witTable enc =
        ReadOutcome.deliver ⟨1, [47, 101], 7, [104, 105]⟩ [] :=
  claim_C2_roundtrip_amended Role.server witTable
    ⟨1, [47, 101], 7, [104, 105]⟩ 255 (by decide) (by decide) (by decide)
    (by decide) (by decide) (by rfl) (by decide) (by decide)

/-- Counterexample to C2 as stated: the packet with path `[47, 0, 97]`
(an interior `0x00`), channel id `7`, data `"hi"` is well-formed per the
claim (`|path| ≤ 512`, `|data| ≤ 16 MiB`) and encodes fine, but decoding
the bytes — even with the packet's own channel `7` present and fresh in
the table — does not yield the packet back: the path parse stops at the
interior NUL, the following bytes are misread as a channel id
(`getUint32 [97, 0, 0, 0] = 1627389952`), and the reader closes the
connection instead of delivering anything. -/
theorem claim_C2_counterexample :
    (⟨1, [47, 0, 97], 7, [104, 105]⟩ : Packet).Path.length ≤ MaxPathLen ∧
    (⟨1, [47, 0, 97], 7, [104, 105]⟩ : Packet).Data.length ≤ MaxPacketSize ∧
    CreateNetPacket ⟨1, [47, 0, 97], 7, [104, 105]⟩ =
      Except.ok [1, 47, 0, 97, 0, 0, 0, 0, 7, 0, 0, 0, 2, 104, 105] ∧
    readerStep Role.server witTable
        [1, 47, 0, 97, 0, 0, 0, 0, 7, 0, 0, 0, 2, 104, 105] =
      ReadOutcome.close CloseReason.unknownChannel := by
  refine ⟨by decide, by decide, ?_, ?_⟩ <;> rfl

/-- C10. `CreateNetPacket` succeeds exactly when `|path| ≤ 512` and
`|data| ≤ 16 MiB` — no validation of the path's bytes — and emits the path
verbatim, interior `0x00` bytes included; the reader's path stage stops at
the first `0x00`, so the decoded path of a packet whose path contains an
interior NUL is a strict prefix of the original path. -/
theorem claim_C10_nul_path_truncation (pkt : Packet) :
    ((CreateNetPacket pkt).isOk = true ↔
      (pkt.Path.length ≤ MaxPathLen ∧ pkt.Data.length ≤ MaxPacketSize)) ∧
    (∀ enc, CreateNetPacket pkt = Except.ok enc →
      enc = pkt.Status :: (pkt.Path ++ 0 :: (putUint32 pkt.ChannelId ++
        putUint32 pkt.Data.length ++ pkt.Data))) ∧
    (∀ enc, CreateNetPacket pkt = Except.ok enc → (0 : Nat) ∈ pkt.Path →
      ∃ decPath r2,
        readSliceZero PacketReadBufSize enc.tail = some (decPath, r2) ∧
        decPath = pkt.Path.takeWhile (fun b => b != 0) ∧
        ∃ suf, suf ≠ [] ∧ decPath ++ suf = pkt.Path) := by
  have henc : ∀ enc, CreateNetPacket pkt = Except.ok enc →
      enc = pkt.Status :: (pkt.Path ++ 0 :: (putUint32 pkt.ChannelId ++
        putUint32 pkt.Data.length ++ pkt.Data)) := by
    intro enc h
    rw [CreateNetPacket] at h
    split_ifs at h
    exact (Except.ok.inj h).symm
  refine ⟨?_, henc, ?_⟩
  · rw [CreateNetPacket]
    split_ifs with h1 h2
    · simp only [Except.isOk, Except.toBool, Bool.false_eq_true, false_iff,
        not_and]
      intro hp
      exact absurd hp (not_le.mpr h1)
    · simp only [Except.isOk, Except.toBool, Bool.false_eq_true, false_iff,
        not_and]
      intro _ hd
      exact absurd hd (not_le.mpr h2)
    · simp only [Except.isOk, Except.toBool, true_iff]
      exact ⟨not_lt.mp h1, not_lt.mp h2⟩
  · intro enc h h0
    have hpb : pkt.Path.length ≤ MaxPathLen := by
      rw [CreateNetPacket] at h
      split_ifs at h with h1 h2
      exact not_lt.mp h1
    have htw : (pkt.Path.takeWhile (fun b => b != 0)).length <
        PacketReadBufSize := by
      have hle : (pkt.Path.takeWhile (fun b => b != 0)).length ≤
          pkt.Path.length := by
        calc (pkt.Path.takeWhile (fun b => b != 0)).length
            ≤ (pkt.Path.takeWhile (fun b => b != 0)).length +
              (pkt.Path.dropWhile (fun b => b != 0)).length :=
              Nat.le_add_right _ _
          _ = pkt.Path.length := by
              rw [← List.length_append, List.takeWhile_append_dropWhile]
      have hpb2 : pkt.Path.length ≤ 512 := hpb
      show (pkt.Path.takeWhile (fun b => b != 0)).length < 16 * 1024
      omega
    rw [henc enc h]
    have hread := readSliceZero_of_mem h0 htw
      (0 :: (putUint32 pkt.ChannelId ++ putUint32 pkt.Data.length ++ pkt.Data))
    refine ⟨pkt.Path.takeWhile (fun b => b != 0),
      (pkt.Path.dropWhile (fun b => b != 0)).tail ++
        0 :: (putUint32 pkt.ChannelId ++ putUint32 pkt.Data.length ++ pkt.Data),
      ?_, rfl, pkt.Path.dropWhile (fun b => b != 0), ?_,
      List.takeWhile_append_dropWhile _ _⟩
    · exact hread
    · intro hnil
      have h2 := List.dropWhile_eq_nil_iff.mp hnil 0 h0
      simp at h2

/-- C4 (code-bug evaluation). Evaluating the first `Channel.Close` of an
open client (resp. server) channel `7`: exactly one close-intent frame is
enqueued and its `channel_id` is `7`, the channel leaves the table and the
terminal error is recorded — but the frame's status byte is `1` (client)
resp. `5` (server), never `8`: `Close` builds `&Packet{Type: 8, ...}`
without setting `Status`, and `SendPacket` overwrites `Status` with the
single-frame done status, while `Type` is never serialised. -/
theorem claim_C4_close_frame_evaluation :
    (channelClose Role.client 7 "app closes the channel"
        ⟨{0, 7}, ∅, []⟩ ⟨none, true⟩).1.emitted = [⟨1, [], 7, []⟩] ∧
    (channelClose Role.server 7 "app closes the channel"
        ⟨{0, 7}, ∅, []⟩ ⟨none, true⟩).1.emitted = [⟨5, [], 7, []⟩] ∧
    (∀ f ∈ (channelClose Role.client 7 "app closes the channel"
        ⟨{0, 7}, ∅, []⟩ ⟨none, true⟩).1.emitted,
      f.Status ≠ 8 ∧ f.ChannelId = 7) ∧
    (∀ f ∈ (channelClose Role.server 7 "app closes the channel"
        ⟨{0, 7}, ∅, []⟩ ⟨none, true⟩).1.emitted,
      f.Status ≠ 8 ∧ f.ChannelId = 7) ∧
    (channelClose Role.client 7 "app closes the channel"
        ⟨{0, 7}, ∅, []⟩ ⟨none, true⟩).1.channels = {0} ∧
    7 ∈ (channelClose Role.client 7 "app closes the channel"
        ⟨{0, 7}, ∅, []⟩ ⟨none, true⟩).1.freeIds ∧
    (channelClose Role.client 7 "app closes the channel"
        ⟨{0, 7}, ∅, []⟩ ⟨none, true⟩).2.err =
      some "app closes the channel" := by
  decide

/-- C5 (code-bug evaluation). A channel has received `(C0, "ab")` and
holds it as the pending merge; the final frame `(C3, "cd")` arrives. The
dispatcher computes the merged message `"abcd"` and the completed flag is
rightly `true` (`C3` completes the client message) — but the handler is
invoked with the raw frame (payload `"cd"`, not the accumulated message),
and the pending merge is NOT reset (the loop tests
`isServerStatusCompleted` on a client-status frame), both contrary to the
claim. -/
theorem claim_C5_dispatch_evaluation :
    (serverDispatchStep (some ⟨0, [47, 101], 7, [97, 98]⟩)
        ⟨3, [47, 101], 7, [99, 100]⟩).completedFlag = true ∧
    (serverDispatchStep (some ⟨0, [47, 101], 7, [97, 98]⟩)
        ⟨3, [47, 101], 7, [99, 100]⟩).merged.Data = [97, 98, 99, 100] ∧
    (serverDispatchStep (some ⟨0, [47, 101], 7, [97, 98]⟩)
        ⟨3, [47, 101], 7, [99, 100]⟩).handlerArg.Data = [99, 100] ∧
    (serverDispatchStep (some ⟨0, [47, 101], 7, [97, 98]⟩)
        ⟨3, [47, 101], 7, [99, 100]⟩).handlerArg.Data ≠
      (serverDispatchStep (some ⟨0, [47, 101], 7, [97, 98]⟩)
        ⟨3, [47, 101], 7, [99, 100]⟩).merged.Data ∧
    (serverDispatchStep (some ⟨0, [47, 101], 7, [97, 98]⟩)
        ⟨3, [47, 101], 7, [99, 100]⟩).pendingAfter ≠ none := by
  decide

/-- Counterexample to C8 as stated: two sequential `Channel.Close` calls
with different error arguments do not leave the state of a single call —
the second call re-runs the body (the close latch is reset by the
deferred store) and overwrites the terminal error. -/
theorem claim_C8_counterexample :
    ((channelClose Role.client 7 "second close reason"
        (channelClose Role.client 7 "first close reason"
          ⟨{0, 7}, ∅, []⟩ ⟨none, true⟩).1
        (channelClose Role.client 7 "first close reason"
          ⟨{0, 7}, ∅, []⟩ ⟨none, true⟩).2).2.err =
      some "second close reason") ∧
    ((channelClose Role.client 7 "first close reason"
        ⟨{0, 7}, ∅, []⟩ ⟨none, true⟩).2.err = some "first close reason") ∧
    (channelClose Role.client 7 "second close reason"
        (channelClose Role.client 7 "first close reason"
          ⟨{0, 7}, ∅, []⟩ ⟨none, true⟩).1
        (channelClose Role.client 7 "first close reason"
          ⟨{0, 7}, ∅, []⟩ ⟨none, true⟩).2).2.err ≠
      (channelClose Role.client 7 "first close reason"
        ⟨{0, 7}, ∅, []⟩ ⟨none, true⟩).2.err := by
  decide

/-- C8 (amended). `Channel.Close` and `Connection.Close` are idempotent in
every observable except the terminal error: a repeated sequential call
emits no further close frame and leaves the channel table, free-id set,
emitted frames and stop latch unchanged, and a repeated call with the same
error argument is indistinguishable from a single call; but a repeated
call overwrites the recorded terminal error with its own argument. -/
theorem claim_C8_close_idempotent_amended (role : Role) (id : Nat)
    (e1 e2 : String) (c : ConnObs) (ch : ChanObs) (s : ConnCloseSt) :
    (channelClose role id e2 (channelClose role id e1 c ch).1
        (channelClose role id e1 c ch).2 =
      ((channelClose role id e1 c ch).1,
        { (channelClose role id e1 c ch).2 with err := some e2 })) ∧
    (channelClose role id e1 (channelClose role id e1 c ch).1
        (channelClose role id e1 c ch).2 = channelClose role id e1 c ch) ∧
    (connClose role e2 (connClose role e1 s) =
      { connClose role e1 s with connErr := some e2 }) ∧
    (connClose role e1 (connClose role e1 s) = connClose role e1 s) := by
  have hTable : ∀ (l : List (Nat × ChanObs)) (st : ConnCloseSt),
      (l.foldl (closeOneChannel role) st).table =
        st.table.filter (fun p => decide (p.1 ∉ l.map Prod.fst)) := by
    intro l
    induction l with
    | nil => intro st; simp
    | cons a t ih =>
      intro st
      rw [List.foldl_cons, ih]
      show (closeOneChannel role st a).table.filter _ = _
      simp only [closeOneChannel]
      rw [List.filter_filter]
      apply List.filter_congr
      intro p _
      by_cases h1 : p.1 = a.1 <;> by_cases h2 : p.1 ∈ t.map Prod.fst <;>
        simp [h1, h2]
  have hPres : ∀ (l : List (Nat × ChanObs)) (st : ConnCloseSt),
      (l.foldl (closeOneChannel role) st).connErr = st.connErr := by
    intro l
    induction l with
    | nil => intro st; rfl
    | cons a t ih => intro st; exact ih _
  have closedTable : (connClose role e1 s).table = [] := by
    simp only [connClose]
    rw [hTable]
    refine List.filter_eq_nil_iff.mpr ?_
    intro p hp
    simp only [decide_eq_true_eq, Decidable.not_not]
    exact List.mem_map.mpr ⟨p, hp, rfl⟩
  have hstep : ∀ (X : ConnCloseSt), X.table = [] → X.notifyOpen = false →
      connClose role e2 X = { X with connErr := some e2 } := by
    intro X hT hN
    rcases X with ⟨ce, no, tb, fr, em⟩
    simp only at hT hN
    subst hT
    subst hN
    simp [connClose]
  have hstep1 : ∀ (X : ConnCloseSt), X.table = [] → X.notifyOpen = false →
      connClose role e1 X = { X with connErr := some e1 } := by
    intro X hT hN
    rcases X with ⟨ce, no, tb, fr, em⟩
    simp only at hT hN
    subst hT
    subst hN
    simp [connClose]
  have hErr : (connClose role e1 s).connErr = some e1 := by
    simp only [connClose]
    exact hPres _ _
  have hfix : ∀ (X : ConnCloseSt), X.connErr = some e1 →
      ({ X with connErr := some e1 } : ConnCloseSt) = X := by
    intro X hX
    rcases X with ⟨ce, no, tb, fr, em⟩
    simp only at hX
    subst hX
    rfl
  refine ⟨?_, ?_, hstep _ closedTable rfl, ?_⟩
  · rcases ch with ⟨cherr, chopen⟩
    cases cherr <;>
      simp [channelClose, Finset.erase_idem, Finset.insert_idem]
  · rcases ch with ⟨cherr, chopen⟩
    cases cherr <;>
      simp [channelClose, Finset.erase_idem, Finset.insert_idem]
  · rw [hstep1 _ closedTable rfl, hfix _ hErr]

/-! ## The allocator invariant (C7) -/

/-- The allocator invariant of every reachable state: every free id is
non-zero, at most `MaxChannelId` and not a current table key; every table
key is at most `MaxChannelId`; the free list has no duplicates; the system
channel `0` is in the table. -/
theorem reachableAlloc_invariant {s : AllocSt} (h : ReachableAlloc s) :
    (∀ k ∈ s.freeIds, k ≠ 0 ∧ k ≤ s.maxId ∧ k ∉ s.table) ∧
    (∀ k ∈ s.table, k ≤ s.maxId) ∧
    s.freeIds.Nodup ∧ 0 ∈ s.table := by
  induction h with
  | init =>
    refine ⟨?_, ?_, ?_, ?_⟩ <;> simp [allocInit]
  | step_new s hs ih =>
    obtain ⟨hfree, htab, hnd, h0⟩ := ih
    rcases s with ⟨maxId, freeIds, table⟩
    rcases freeIds with _ | ⟨k, rest⟩
    · by_cases hlt : maxId < 2 ^ 32 - 1
      · simp only [newChannelStep, makeNewChannelId, if_pos hlt]
        refine ⟨by simp, ?_, by simp, ?_⟩
        · intro j hj
          rcases Finset.mem_insert.mp hj with hj | hj
          · omega
          · exact le_trans (htab j hj) (Nat.le_succ _)
        · exact Finset.mem_insert_of_mem h0
      · simp only [newChannelStep, makeNewChannelId, if_neg hlt]
        refine ⟨by simp, ?_, by simp, ?_⟩
        · intro j hj
          rcases Finset.mem_insert.mp hj with hj | hj
          · omega
          · exact htab j hj
        · exact Finset.mem_insert_of_mem h0
    · simp only [newChannelStep, makeNewChannelId]
      obtain ⟨hknd, hrestnd⟩ := List.nodup_cons.mp hnd
      refine ⟨?_, ?_, hrestnd, ?_⟩
      · intro j hj
        obtain ⟨hj0, hjle, hjtab⟩ := hfree j (List.mem_cons_of_mem k hj)
        refine ⟨hj0, hjle, ?_⟩
        intro hmem
        rcases Finset.mem_insert.mp hmem with hjk | hjk
        · exact hknd (hjk ▸ hj)
        · exact hjtab hjk
      · intro j hj
        rcases Finset.mem_insert.mp hj with hj | hj
        · exact hj ▸ (hfree k (List.mem_cons_self k rest)).2.1
        · exact htab j hj
      · exact Finset.mem_insert_of_mem h0
  | step_remove s id hs hmem hnz ih =>
    obtain ⟨hfree, htab, hnd, h0⟩ := ih
    refine ⟨?_, ?_, ?_, ?_⟩
    · intro j hj
      rcases List.mem_cons.mp hj with hj | hj
      · subst hj
        exact ⟨hnz, htab j hmem, Finset.not_mem_erase j s.table⟩
      · obtain ⟨hj0, hjle, hjtab⟩ := hfree j hj
        exact ⟨hj0, hjle, fun hx => hjtab (Finset.mem_of_mem_erase hx)⟩
    · intro j hj
      exact htab j (Finset.mem_of_mem_erase hj)
    · refine List.nodup_cons.mpr ⟨?_, hnd⟩
      intro hmem2
      exact (hfree id hmem2).2.2 hmem
    · exact Finset.mem_erase.mpr ⟨Ne.symm hnz, h0⟩

/-- C7. In every reachable allocator state of a connection: whenever
allocation can succeed (a free id exists, or `MaxChannelId < 2^32 − 1`),
`makeNewChannelId` returns an id that is neither `0` nor a current key of
the channel table; with the free set empty and headroom it returns
`MaxChannelId + 1`; and on exhaustion it returns `0`, the reserved
system-channel id that no successful allocation ever returns — the
distinguishable failure outcome. -/
theorem claim_C7_alloc_never_reuses_live_id (s : AllocSt)
    (h : ReachableAlloc s) :
    ((s.freeIds ≠ [] ∨ s.maxId < 2 ^ 32 - 1) →
      (makeNewChannelId s).1 ≠ 0 ∧ (makeNewChannelId s).1 ∉ s.table) ∧
    (s.freeIds = [] → s.maxId < 2 ^ 32 - 1 →
      (makeNewChannelId s).1 = s.maxId + 1) ∧
    (s.freeIds = [] → ¬ s.maxId < 2 ^ 32 - 1 →
      (makeNewChannelId s).1 = 0) := by
  obtain ⟨hfree, htab, hnd, h0⟩ := reachableAlloc_invariant h
  rcases s with ⟨maxId, freeIds, table⟩
  dsimp only at hfree htab h0 ⊢
  rcases freeIds with _ | ⟨k, rest⟩
  · by_cases hlt : maxId < 2 ^ 32 - 1
    · have hlt2 : maxId < 4294967295 := by omega
      have hred : makeNewChannelId ⟨maxId, [], table⟩ =
          (maxId + 1, ⟨maxId + 1, [], table⟩) := by
        simp [makeNewChannelId, hlt2]
      rw [hred]
      dsimp only
      refine ⟨fun _ => ⟨by omega, fun hmem2 => ?_⟩, fun _ _ => rfl,
        fun _ hn => absurd hlt hn⟩
      have h9 := htab _ hmem2
      omega
    · have hlt2 : ¬ maxId < 4294967295 := by omega
      have hred : makeNewChannelId ⟨maxId, [], table⟩ =
          (0, ⟨maxId, [], table⟩) := by
        simp [makeNewChannelId, hlt2]
      rw [hred]
      dsimp only
      refine ⟨fun hor => ?_, fun _ hl => absurd hl hlt, fun _ _ => rfl⟩
      rcases hor with hor | hor
      · exact absurd rfl hor
      · exact absurd hor hlt
  · have hred : makeNewChannelId ⟨maxId, k :: rest, table⟩ =
        (k, ⟨maxId, rest, table⟩) := rfl
    rw [hred]
    dsimp only
    refine ⟨fun _ => ⟨(hfree k (List.mem_cons_self k rest)).1,
      (hfree k (List.mem_cons_self k rest)).2.2⟩, ?_, ?_⟩ <;>
      · intro hx
        simp at hx

/-- Witness for C7: in the birth state (system channel `0`, no free ids,
`MaxChannelId = 0`) the allocator hands out an id that is neither `0` nor
a table key. -/
theorem claim_C7_alloc_witness :
    (makeNewChannelId allocInit).1 ≠ 0 ∧
    (makeNewChannelId allocInit).1 ∉ allocInit.table :=
  (claim_C7_alloc_never_reuses_live_id allocInit ReachableAlloc.init).1
    (Or.inr (by decide))

end Iip
